import Mathlib

/-!
Shallow embedding of the resilience / admission-control core of the
bff-file-handler service, together with proofs of the specification claims.

Embedded components:
* `DynamicRateLimiter` — the adaptive rate-limit cache
  (`DynamicRateLimiterService.getCurrentLimit`).
* `Retry` — bounded exponential backoff with a retryable-error filter
  (`retryWithBackoff` / `isRetryableError`).
* `Breaker` — the circuit-breaker state machine.
* `Resilience` — `createResilientFunction`: breaker around retry around the
  raw operation, with optional static/computed fallback.
* `Routes` — the upload route handler's aggregation of per-file results.

JavaScript numbers are modelled as rationals (`ℚ`), integer config values and
timestamps as `ℤ`, and promise rejection as `Except`.
-/

namespace BFF

/-! ## Dynamic rate limiter (DynamicRateLimiterService) -/

structure LimiterConfig where
  rateLimitMax : ℤ
  cpuThresholdPercent : ℚ
  memoryThresholdPercent : ℚ
  highLoadLimitFactor : ℚ
  cacheDurationMs : ℤ

structure CachedLimit where
  limit : ℤ
  timestamp : ℤ
deriving DecidableEq

structure LimiterState where
  cachedLimit : Option CachedLimit
  isCheckingMetrics : Bool
deriving DecidableEq

/-- One successful metrics probe: `pidusage` CPU percentage together with
`os.freemem()` and `os.totalmem()`. -/
structure Metrics where
  cpu : ℚ
  freeMemory : ℚ
  totalMemory : ℚ

/-- The expression `((totalMemory - freeMemory) / totalMemory) * 100`, as
computed in `getCurrentLimit`. -/
def memoryUsagePercent (m : Metrics) : ℚ :=
  (m.totalMemory - m.freeMemory) / m.totalMemory * 100

/-- The limit computed from a successful sample: `rateLimitMax`, reduced to
`max(1, floor(rateLimitMax * highLoadLimitFactor))` when the CPU or memory
percentage is above its threshold. -/
def computeLimit (cfg : LimiterConfig) (m : Metrics) : ℤ :=
  if m.cpu > cfg.cpuThresholdPercent ∨ memoryUsagePercent m > cfg.memoryThresholdPercent then
    max 1 ⌊(cfg.rateLimitMax : ℚ) * cfg.highLoadLimitFactor⌋
  else
    cfg.rateLimitMax

/-- Outcome of one `getCurrentLimit()` call: the returned limit, the state of
the service afterwards, whether a metrics probe was started, and whether an
error was logged. -/
structure GetLimitResult where
  result : ℤ
  state : LimiterState
  sampled : Bool
  errorLogged : Bool

/-- The slow path of `getCurrentLimit` (cache absent or expired): honour the
in-progress flag, otherwise probe.  `probe` is the outcome the environment
supplies for `pidusage`/`os` on this call. -/
def getCurrentLimitSlow (cfg : LimiterConfig) (st : LimiterState) (now : ℤ)
    (probe : Except String Metrics) : GetLimitResult :=
  if st.isCheckingMetrics then
    { result := match st.cachedLimit with
        | some c => c.limit
        | none => cfg.rateLimitMax
      state := st, sampled := false, errorLogged := false }
  else
    match probe with
    | .ok m =>
        let lim := computeLimit cfg m
        { result := lim
          state := { cachedLimit := some ⟨lim, now⟩, isCheckingMetrics := false }
          sampled := true, errorLogged := false }
    | .error _ =>
        { result := cfg.rateLimitMax
          state := { cachedLimit := st.cachedLimit, isCheckingMetrics := false }
          sampled := true, errorLogged := true }

/-- One call of `DynamicRateLimiterService.getCurrentLimit` as a state
transition. -/
def getCurrentLimit (cfg : LimiterConfig) (st : LimiterState) (now : ℤ)
    (probe : Except String Metrics) : GetLimitResult :=
  match st.cachedLimit with
  | some c =>
      if now - c.timestamp < cfg.cacheDurationMs then
        { result := c.limit, state := st, sampled := false, errorLogged := false }
      else
        getCurrentLimitSlow cfg st now probe
  | none => getCurrentLimitSlow cfg st now probe

/-- A sequence of `getCurrentLimit` calls, each supplying its wall-clock time
and the probe outcome it would observe; returns the list of returned limits,
the final state, and how many probes were started. -/
def runCalls (cfg : LimiterConfig) (st : LimiterState) :
    List (ℤ × Except String Metrics) → List ℤ × LimiterState × ℕ
  | [] => ([], st, 0)
  | (now, probe) :: rest =>
      let r := getCurrentLimit cfg st now probe
      let (rs, st1, n) := runCalls cfg r.state rest
      (r.result :: rs, st1, (if r.sampled then 1 else 0) + n)

/-! ## Retry with backoff (retryWithBackoff / isRetryableError) -/

/-- One entry of `retryableErrors`: a literal substring or a regular
expression; a regex is modelled by its `test` predicate on messages. -/
inductive RetryPattern where
  | str (s : String)
  | regex (test : String → Bool)

/-- JavaScript `message.includes(pattern)`: substring containment. -/
def jsIncludes (msg pat : String) : Bool :=
  decide (pat.toList <:+: msg.toList)

/-- The predicate `isRetryableError`: the message contains some listed
literal substring or satisfies some listed regex. -/
def isRetryableError (msg : String) (pats : List RetryPattern) : Bool :=
  pats.any fun p =>
    match p with
    | .str s => jsIncludes msg s
    | .regex t => t msg

/-- Retry options after merging with the defaults.  `retryableErrors = none`
models the field being absent (`undefined`); `some pats` models a present
array, possibly empty — the source guards the filter with the truthiness of
the array, and an empty array is truthy. -/
structure RetryOptions where
  maxRetries : ℕ
  initialDelayMs : ℚ
  maxDelayMs : ℚ
  backoffFactor : ℚ
  retryableErrors : Option (List RetryPattern)

/-- The default retry options of the source. -/
def defaultRetryOptions : RetryOptions :=
  { maxRetries := 3, initialDelayMs := 100, maxDelayMs := 5000, backoffFactor := 2
    retryableErrors := none }

/-- The guard `retryOptions.retryableErrors && !isRetryableError(error, …)`
that rethrows without retrying. -/
def retryBlocked (opts : RetryOptions) (msg : String) : Bool :=
  match opts.retryableErrors with
  | some pats => ! isRetryableError msg pats
  | none => false

/-- The trace of a `retryWithBackoff` run: the settled result, the backoff
delays actually slept (in order), and the number of times the wrapped
operation was invoked. -/
structure RetryRun (T : Type) where
  result : Except String T
  delays : List ℚ
  attempts : ℕ

/-- The retry loop body.  `fn n` is the outcome of the operation on its
`n`-th invocation; `delay` is the mutable delay variable; `remaining` is
`maxRetries - attempt`, so `remaining = 0` is the `attempt >= maxRetries`
exit. -/
def retryAux {T : Type} (fn : ℕ → Except String T) (opts : RetryOptions) :
    ℕ → ℚ → ℕ → RetryRun T
  | attempt, _, 0 =>
      match fn attempt with
      | .ok v => ⟨.ok v, [], 1⟩
      | .error e => ⟨.error e, [], 1⟩
  | attempt, delay, r + 1 =>
      match fn attempt with
      | .ok v => ⟨.ok v, [], 1⟩
      | .error e =>
          if retryBlocked opts e then ⟨.error e, [], 1⟩
          else
            let rest := retryAux fn opts (attempt + 1)
              (min (delay * opts.backoffFactor) opts.maxDelayMs) r
            ⟨rest.result, delay :: rest.delays, rest.attempts + 1⟩

/-- The function `retryWithBackoff`: run the operation with up to
`maxRetries` retries and exponential backoff. -/
def retryWithBackoff {T : Type} (fn : ℕ → Except String T) (opts : RetryOptions) :
    RetryRun T :=
  retryAux fn opts 0 opts.initialDelayMs opts.maxRetries

/-- The sequence of the delay variable: starts at `d`, then repeatedly
`min (delay * backoffFactor, maxDelayMs)`. -/
def delayIter (opts : RetryOptions) (d : ℚ) : ℕ → ℚ
  | 0 => d
  | i + 1 => delayIter opts (min (d * opts.backoffFactor) opts.maxDelayMs) i

/-! ## Circuit breaker

The breaker implementation is the external `opossum` dependency; only its
construction and configuration live in the repository, so the state machine
below is modelled from the specification (§4.2). -/

/-- Modelled from the spec: the circuit state of the breaker, which the
repository delegates to the external `opossum` package.  `opened t` records
when the breaker opened; `halfOpenWaiting` is the half-open state with the
single trial call already outstanding. -/
inductive CircuitState where
  | closed
  | opened (openedAt : ℤ)
  | halfOpenWaiting
deriving DecidableEq

structure BreakerConfig where
  errorThresholdPercentage : ℚ
  resetTimeout : ℤ
  rollingCountTimeout : ℤ

/-- How a `fire` call fails: the CircuitOpen signal of a short-circuited
call, or the underlying error of the wrapped operation. -/
inductive BreakerError where
  | circuitOpen
  | underlying (msg : String)
deriving DecidableEq

/-- Breaker state: the circuit state and the rolling window of recorded
outcomes, each a `(timestamp, isFailure)` pair. -/
structure BreakerState where
  circuit : CircuitState
  window : List (ℤ × Bool)

/-- Outcome of one `fire` call: the settled result (`none` is the null result
produced when a fallback handler itself failed), whether the wrapped function
was invoked, the breaker state afterwards, and whether a fallback ran. -/
structure FireOutcome (β : Type) where
  result : Except BreakerError (Option β)
  invoked : Bool
  state : BreakerState
  fallbackUsed : Bool

/-- The outcomes of the rolling window still inside `rollingCountTimeout`. -/
def freshOutcomes (cfg : BreakerConfig) (now : ℤ) (w : List (ℤ × Bool)) :
    List (ℤ × Bool) :=
  w.filter fun e => now - e.1 < cfg.rollingCountTimeout

/-- Whether the failure percentage of the window exceeds
`errorThresholdPercentage`: `fails / total * 100 > threshold`, cleared of the
division. -/
def failureRateExceeded (cfg : BreakerConfig) (w : List (ℤ × Bool)) : Bool :=
  decide (((w.filter (·.2)).length : ℚ) * 100 > cfg.errorThresholdPercentage * w.length)

/-- Modelled from the spec: recording one outcome into the rolling window in
the closed state, opening the breaker when the failure percentage within the
window exceeds the threshold. -/
def recordOutcome (cfg : BreakerConfig) (now : ℤ) (failed : Bool) (st : BreakerState) :
    BreakerState :=
  let w := freshOutcomes cfg now st.window ++ [(now, failed)]
  if failureRateExceeded cfg w then ⟨.opened now, w⟩ else ⟨.closed, w⟩

/-- Short-circuiting a call without invoking the wrapped function: resolve
via the fallback when one is registered, otherwise fail with the CircuitOpen
signal. -/
def shortCircuit {α β : Type} (fb : Option (α → Option β × Bool)) (args : α)
    (st : BreakerState) : FireOutcome β :=
  match fb with
  | some h => { result := .ok (h args).1, invoked := false, state := st, fallbackUsed := true }
  | none => { result := .error .circuitOpen, invoked := false, state := st, fallbackUsed := false }

/-- Modelled from the spec: `fire` of the `opossum` breaker, absent from the
repository.  A registered fallback handler is a total function
`args → (value, errorLogged)` (it never throws; `none` is the null result).
In the open state the timer transition to half-open is applied first: a call
arriving after `resetTimeout` is the half-open trial. -/
def fire {α β : Type} (cfg : BreakerConfig) (action : α → Except String β)
    (fb : Option (α → Option β × Bool)) (st : BreakerState) (now : ℤ) (args : α) :
    FireOutcome β :=
  match st.circuit with
  | .closed =>
      match action args with
      | .ok v =>
          { result := .ok (some v), invoked := true
            state := recordOutcome cfg now false st, fallbackUsed := false }
      | .error e =>
          let st1 := recordOutcome cfg now true st
          match fb with
          | some h => { result := .ok (h args).1, invoked := true, state := st1, fallbackUsed := true }
          | none => { result := .error (.underlying e), invoked := true, state := st1, fallbackUsed := false }
  | .opened t =>
      if now - t < cfg.resetTimeout then shortCircuit fb args st
      else
        match action args with
        | .ok v =>
            { result := .ok (some v), invoked := true, state := ⟨.closed, []⟩, fallbackUsed := false }
        | .error e =>
            match fb with
            | some h =>
                { result := .ok (h args).1, invoked := true
                  state := ⟨.opened now, st.window⟩, fallbackUsed := true }
            | none =>
                { result := .error (.underlying e), invoked := true
                  state := ⟨.opened now, st.window⟩, fallbackUsed := false }
  | .halfOpenWaiting => shortCircuit fb args st

/-! ## Resilient function (createResilientFunction) -/

/-- The `options.fallbackValue` when present: a plain value, or a function of
the original call arguments (which may itself fail). -/
inductive FallbackSpec (α β : Type) where
  | static (v : β)
  | computed (f : α → Except String β)

/-- The handler `createResilientFunction` registers on the breaker: a static
value is resolved as-is; a computed fallback is invoked with the original
arguments inside a try/catch that logs a failure and degrades it to the null
result.  Returns the produced value (`none` encoding null) and whether a
fallback error was logged. -/
def registeredFallback {α β : Type} (fs : FallbackSpec α β) (args : α) :
    Option β × Bool :=
  match fs with
  | .static v => (some v, false)
  | .computed f =>
      match f args with
      | .ok v => (some v, false)
      | .error _ => (none, true)

structure ResilienceOptions (α β : Type) where
  retry : RetryOptions
  breakerConfig : BreakerConfig
  fallbackValue : Option (FallbackSpec α β)

/-- The operation `createResilientFunction` hands to `createCircuitBreaker`:
the raw operation wrapped in `retryWithBackoff`.  `fn args n` is the outcome
of the `n`-th invocation of the raw operation during this call. -/
def resilientAction {α β : Type} (fn : α → ℕ → Except String β)
    (ropts : RetryOptions) (args : α) : Except String β :=
  (retryWithBackoff (fn args) ropts).result

/-- The function returned by `createResilientFunction`: it delegates to the
breaker's `fire`, with the fallback (attached once at construction) already
in place. -/
def resilientInvoke {α β : Type} (fn : α → ℕ → Except String β)
    (opts : ResilienceOptions α β) (st : BreakerState) (now : ℤ) (args : α) :
    FireOutcome β :=
  fire opts.breakerConfig (resilientAction fn opts.retry)
    (opts.fallbackValue.map fun fs => registeredFallback fs) st now args

/-! ## Upload route handler (fileRoutes POST) -/

/-- The per-file result object built by `processFile` or by the configured
fallback. -/
structure FileResult where
  filename : String
  size : ℕ
  processed : Bool
  error : Option String
deriving DecidableEq

/-- The count `processingResults.filter((result) => !result.processed).length`,
where a list entry `none` is the null result: reading `processed` of null
throws a TypeError, modelled as `Except.error ()`. -/
def countFailed : List (Option FileResult) → Except Unit ℕ
  | [] => .ok 0
  | none :: _ => .error ()
  | some r :: rest =>
      match countFailed rest with
      | .ok n => .ok (if ! r.processed then n + 1 else n)
      | .error e => .error e

/-- The response of the POST handler: a 201 payload with per-file results and
an optional failed-files summary, or the error path (`next(error)`). -/
inductive UploadResponse where
  | created (results : List (Option FileResult)) (failedCount : Option ℕ)
  | errorResponse
deriving DecidableEq

/-- The result-aggregation part of the POST handler, applied to the settled
per-file processing results. -/
def uploadHandler (results : List (Option FileResult)) : UploadResponse :=
  match countFailed results with
  | .ok n => .created results (if n > 0 then some n else none)
  | .error _ => .errorResponse

/-! ## Rate limiter theorems -/

/-- Helper: a call that hits a fresh cache returns it and changes nothing. -/
theorem getCurrentLimit_freshCache (cfg : LimiterConfig) (st : LimiterState) (now : ℤ)
    (probe : Except String Metrics) (c : CachedLimit) (hc : st.cachedLimit = some c)
    (hfresh : now - c.timestamp < cfg.cacheDurationMs) :
    getCurrentLimit cfg st now probe =
      { result := c.limit, state := st, sampled := false, errorLogged := false } := by
  simp only [getCurrentLimit, hc, if_pos hfresh]

/-- Helper: from a state whose cache was written at time `t0`, any sequence
of calls at times within the TTL window returns the cached limit every time,
takes no sample, and leaves the state unchanged. -/
theorem runCalls_freshCache (cfg : LimiterConfig) (L t0 : ℤ) (chk : Bool)
    (calls : List (ℤ × Except String Metrics))
    (hwin : ∀ p ∈ calls, p.1 - t0 < cfg.cacheDurationMs) :
    runCalls cfg ⟨some ⟨L, t0⟩, chk⟩ calls =
      (calls.map fun _ => L, ⟨some ⟨L, t0⟩, chk⟩, 0) := by
  induction calls with
  | nil => rfl
  | cons p rest ih =>
      obtain ⟨now, probe⟩ := p
      have hfresh : now - t0 < cfg.cacheDurationMs := hwin (now, probe) (List.mem_cons_self _ _)
      have hstep := getCurrentLimit_freshCache cfg ⟨some ⟨L, t0⟩, chk⟩ now probe ⟨L, t0⟩ rfl hfresh
      have hrest := ih fun q hq => hwin q (List.mem_cons_of_mem _ hq)
      simp [runCalls, hstep, hrest]

/-- C1: when `getCurrentLimit` obtains a metrics sample (cache absent or
expired, no probe in progress, successful probe), the limit it returns and
caches is `max(1, floor(baseMax * highLoadLimitFactor))` when the sampled CPU
percentage exceeds `cpuThresholdPercent` or the sampled memory percentage
exceeds `memoryThresholdPercent`, and `baseMax` otherwise. -/
theorem getCurrentLimit_sample_spec (cfg : LimiterConfig) (st : LimiterState) (now : ℤ)
    (m : Metrics)
    (hcache : st.cachedLimit = none ∨
      ∃ c, st.cachedLimit = some c ∧ cfg.cacheDurationMs ≤ now - c.timestamp)
    (hflag : st.isCheckingMetrics = false) :
    (getCurrentLimit cfg st now (.ok m)).result =
      (if m.cpu > cfg.cpuThresholdPercent ∨
          memoryUsagePercent m > cfg.memoryThresholdPercent then
        max 1 ⌊(cfg.rateLimitMax : ℚ) * cfg.highLoadLimitFactor⌋
      else cfg.rateLimitMax) ∧
    (getCurrentLimit cfg st now (.ok m)).state.cachedLimit =
      some ⟨(getCurrentLimit cfg st now (.ok m)).result, now⟩ := by
  have hslow : getCurrentLimit cfg st now (.ok m) = getCurrentLimitSlow cfg st now (.ok m) := by
    rcases hcache with h | ⟨c, hc, hstale⟩
    · simp only [getCurrentLimit, h]
    · simp only [getCurrentLimit, hc, if_neg (by omega : ¬ now - c.timestamp < cfg.cacheDurationMs)]
  rw [hslow]
  simp [getCurrentLimitSlow, hflag, computeLimit]

/-- C1 witness: with `baseMax = 10`, `highLoadLimitFactor = 1/2`,
`cpuThresholdPercent = 80` and low memory use, a sample of cpu = 85 yields 5
and a sample of cpu = 50 yields 10. -/
theorem getCurrentLimit_sample_spec_witness :
    (getCurrentLimit ⟨10, 80, 80, 1/2, 5000⟩ ⟨none, false⟩ 0
        (.ok ⟨85, 50, 100⟩)).result = 5 ∧
    (getCurrentLimit ⟨10, 80, 80, 1/2, 5000⟩ ⟨none, false⟩ 0
        (.ok ⟨50, 50, 100⟩)).result = 10 := by
  have h1 := getCurrentLimit_sample_spec ⟨10, 80, 80, 1/2, 5000⟩ ⟨none, false⟩ 0
    ⟨85, 50, 100⟩ (Or.inl rfl) rfl
  have h2 := getCurrentLimit_sample_spec ⟨10, 80, 80, 1/2, 5000⟩ ⟨none, false⟩ 0
    ⟨50, 50, 100⟩ (Or.inl rfl) rfl
  constructor
  · rw [h1.1]; norm_num [memoryUsagePercent]
  · rw [h2.1]; norm_num [memoryUsagePercent]

/-- C4: starting with no cached value and no probe in flight, a call at `t0`
whose probe succeeds followed by any calls within the TTL window takes exactly
one metrics sample in total, and every call of the sequence returns the same
value. -/
theorem runCalls_singleSample (cfg : LimiterConfig) (st0 : LimiterState) (t0 : ℤ)
    (m : Metrics) (rest : List (ℤ × Except String Metrics))
    (hnone : st0.cachedLimit = none) (hflag : st0.isCheckingMetrics = false)
    (hwin : ∀ p ∈ rest, p.1 - t0 < cfg.cacheDurationMs) :
    runCalls cfg st0 ((t0, .ok m) :: rest) =
      (computeLimit cfg m :: rest.map (fun _ => computeLimit cfg m),
        ⟨some ⟨computeLimit cfg m, t0⟩, false⟩, 1) := by
  have hstep : getCurrentLimit cfg st0 t0 (.ok m) =
      { result := computeLimit cfg m
        state := ⟨some ⟨computeLimit cfg m, t0⟩, false⟩
        sampled := true, errorLogged := false } := by
    simp only [getCurrentLimit, hnone, getCurrentLimitSlow, hflag, Bool.false_eq_true, if_false]
  simp [runCalls, hstep, runCalls_freshCache cfg (computeLimit cfg m) t0 false rest hwin]

/-- C4 witness: three calls inside a 5000 ms window — one sample, identical
results. -/
theorem runCalls_singleSample_witness :
    runCalls ⟨10, 80, 80, 1/2, 5000⟩ ⟨none, false⟩
        [(0, .ok ⟨85, 50, 100⟩), (100, .error "down"), (4999, .ok ⟨1, 99, 100⟩)] =
      ([5, 5, 5], ⟨some ⟨5, 0⟩, false⟩, 1) := by
  have h := runCalls_singleSample ⟨10, 80, 80, 1/2, 5000⟩ ⟨none, false⟩ 0
    ⟨85, 50, 100⟩ [(100, .error "down"), (4999, .ok ⟨1, 99, 100⟩)] rfl rfl
    (by intro p hp; fin_cases hp <;> norm_num)
  rw [h]
  norm_num [computeLimit, memoryUsagePercent]

/-- C8: when the cache is absent or expired, no probe is in flight and the
metrics probe fails, `getCurrentLimit` logs the error, returns `baseMax`, does
not touch the cached limit, and clears the in-progress marker. -/
theorem getCurrentLimit_probeFailure (cfg : LimiterConfig) (st : LimiterState) (now : ℤ)
    (e : String)
    (hcache : st.cachedLimit = none ∨
      ∃ c, st.cachedLimit = some c ∧ cfg.cacheDurationMs ≤ now - c.timestamp)
    (hflag : st.isCheckingMetrics = false) :
    (getCurrentLimit cfg st now (.error e)).result = cfg.rateLimitMax ∧
    (getCurrentLimit cfg st now (.error e)).state.cachedLimit = st.cachedLimit ∧
    (getCurrentLimit cfg st now (.error e)).state.isCheckingMetrics = false ∧
    (getCurrentLimit cfg st now (.error e)).errorLogged = true := by
  have hslow : getCurrentLimit cfg st now (.error e) =
      getCurrentLimitSlow cfg st now (.error e) := by
    rcases hcache with h | ⟨c, hc, hstale⟩
    · simp only [getCurrentLimit, h]
    · simp only [getCurrentLimit, hc, if_neg (by omega : ¬ now - c.timestamp < cfg.cacheDurationMs)]
  rw [hslow]
  simp [getCurrentLimitSlow, hflag]

/-- C8 witness: a failing probe on an empty cache returns `baseMax = 10`,
caches nothing, clears the flag and logs. -/
theorem getCurrentLimit_probeFailure_witness :
    (getCurrentLimit ⟨10, 80, 80, 1/2, 5000⟩ ⟨none, false⟩ 0 (.error "pidusage down")).result
        = 10 ∧
    (getCurrentLimit ⟨10, 80, 80, 1/2, 5000⟩ ⟨none, false⟩ 0
        (.error "pidusage down")).state.cachedLimit = none := by
  have h := getCurrentLimit_probeFailure ⟨10, 80, 80, 1/2, 5000⟩ ⟨none, false⟩ 0
    "pidusage down" (Or.inl rfl) rfl
  exact ⟨h.1, h.2.1⟩

/-- C9: a call that arrives while a recomputation is in progress returns the
cached limit (or `baseMax` when none exists), takes no sample, and leaves the
state untouched. -/
theorem getCurrentLimit_inProgress (cfg : LimiterConfig) (st : LimiterState) (now : ℤ)
    (probe : Except String Metrics) (hflag : st.isCheckingMetrics = true) :
    (getCurrentLimit cfg st now probe).result =
      (match st.cachedLimit with
        | some c => c.limit
        | none => cfg.rateLimitMax) ∧
    (getCurrentLimit cfg st now probe).sampled = false ∧
    (getCurrentLimit cfg st now probe).state = st := by
  match hc : st.cachedLimit with
  | some c =>
      by_cases hfresh : now - c.timestamp < cfg.cacheDurationMs
      · simp [getCurrentLimit, hc, if_pos hfresh]
      · simp [getCurrentLimit, hc, if_neg hfresh, getCurrentLimitSlow, hflag]
  | none =>
      simp [getCurrentLimit, hc, getCurrentLimitSlow, hflag]

/-- C9 witness: with a probe in flight and a (stale) cached limit 7, the call
returns 7 without sampling; the probe argument is ignored. -/
theorem getCurrentLimit_inProgress_witness :
    (getCurrentLimit ⟨10, 80, 80, 1/2, 5000⟩ ⟨some ⟨7, 0⟩, true⟩ 99999
        (.ok ⟨85, 50, 100⟩)).result = 7 ∧
    (getCurrentLimit ⟨10, 80, 80, 1/2, 5000⟩ ⟨some ⟨7, 0⟩, true⟩ 99999
        (.ok ⟨85, 50, 100⟩)).sampled = false := by
  have h := getCurrentLimit_inProgress ⟨10, 80, 80, 1/2, 5000⟩ ⟨some ⟨7, 0⟩, true⟩ 99999
    (.ok ⟨85, 50, 100⟩) rfl
  exact ⟨h.1, h.2.1⟩

/-! ## Retry theorems -/

/-- Helper: the loop sleeps at most `remaining` times. -/
theorem retryAux_delays_length {T : Type} (fn : ℕ → Except String T) (opts : RetryOptions) :
    ∀ (r a : ℕ) (d : ℚ), (retryAux fn opts a d r).delays.length ≤ r := by
  intro r
  induction r with
  | zero => intro a d; cases h : fn a <;> simp [retryAux, h]
  | succ r ih =>
      intro a d
      cases h : fn a with
      | ok v => simp [retryAux, h]
      | error e =>
          by_cases hb : retryBlocked opts e
          · simp [retryAux, h, hb]
          · simpa [retryAux, h, hb] using ih (a + 1) (min (d * opts.backoffFactor) opts.maxDelayMs)

/-- Helper: the number of invocations is always one more than the number of
sleeps. -/
theorem retryAux_attempts {T : Type} (fn : ℕ → Except String T) (opts : RetryOptions) :
    ∀ (r a : ℕ) (d : ℚ),
      (retryAux fn opts a d r).attempts = (retryAux fn opts a d r).delays.length + 1 := by
  intro r
  induction r with
  | zero => intro a d; cases h : fn a <;> simp [retryAux, h]
  | succ r ih =>
      intro a d
      cases h : fn a with
      | ok v => simp [retryAux, h]
      | error e =>
          by_cases hb : retryBlocked opts e
          · simp [retryAux, h, hb]
          · simpa [retryAux, h, hb] using ih (a + 1) (min (d * opts.backoffFactor) opts.maxDelayMs)

/-- Helper: the `i`-th slept delay is the `i`-th value of the delay
recurrence started at `d`. -/
theorem retryAux_delays_getD {T : Type} (fn : ℕ → Except String T) (opts : RetryOptions) :
    ∀ (r a : ℕ) (d : ℚ) (i : ℕ), i < (retryAux fn opts a d r).delays.length →
      (retryAux fn opts a d r).delays.getD i 0 = delayIter opts d i := by
  intro r
  induction r with
  | zero =>
      intro a d i hi
      exfalso
      cases h : fn a <;> simp [retryAux, h] at hi
  | succ r ih =>
      intro a d i hi
      cases h : fn a with
      | ok v => simp [retryAux, h] at hi
      | error e =>
          by_cases hb : retryBlocked opts e
          · simp [retryAux, h, hb] at hi
          · cases i with
            | zero => simp [retryAux, h, hb, delayIter]
            | succ i =>
                have hi1 : i <
                    (retryAux fn opts (a + 1)
                      (min (d * opts.backoffFactor) opts.maxDelayMs) r).delays.length := by
                  simpa [retryAux, h, hb] using hi
                have := ih (a + 1) (min (d * opts.backoffFactor) opts.maxDelayMs) i hi1
                simpa [retryAux, h, hb, delayIter] using this

/-- Helper: when the starting delay is between `0` and `maxDelayMs` and the
backoff factor is at least one, the delay recurrence has the closed form
`min (d * factor ^ i, maxDelayMs)`. -/
theorem delayIter_closedForm (opts : RetryOptions) (h2 : 1 ≤ opts.backoffFactor) :
    ∀ (i : ℕ) (d : ℚ), 0 ≤ d → d ≤ opts.maxDelayMs →
      delayIter opts d i = min (d * opts.backoffFactor ^ i) opts.maxDelayMs := by
  intro i
  induction i with
  | zero => intro d h0 h1; simp [delayIter, min_eq_left h1]
  | succ i ih =>
      intro d h0 h1
      have hM : 0 ≤ opts.maxDelayMs := le_trans h0 h1
      have hf0 : (0 : ℚ) ≤ opts.backoffFactor := le_trans zero_le_one h2
      have hdf : 0 ≤ d * opts.backoffFactor := mul_nonneg h0 hf0
      have hfi : (1 : ℚ) ≤ opts.backoffFactor ^ i := one_le_pow₀ h2
      rw [delayIter, ih _ (le_min hdf hM) (min_le_right _ _)]
      rcases le_or_lt (d * opts.backoffFactor) opts.maxDelayMs with hle | hgt
      · have harith : d * opts.backoffFactor * opts.backoffFactor ^ i =
            d * opts.backoffFactor ^ (i + 1) := by ring
        rw [min_eq_left hle, harith]
      · have hMfi : opts.maxDelayMs ≤ opts.maxDelayMs * opts.backoffFactor ^ i :=
          le_mul_of_one_le_right hM hfi
        have hbig : opts.maxDelayMs ≤ d * opts.backoffFactor ^ (i + 1) := by
          calc opts.maxDelayMs ≤ d * opts.backoffFactor := le_of_lt hgt
            _ ≤ d * opts.backoffFactor * opts.backoffFactor ^ i :=
                le_mul_of_one_le_right hdf hfi
            _ = d * opts.backoffFactor ^ (i + 1) := by ring
        rw [min_eq_right (le_of_lt hgt), min_eq_right hMfi, min_eq_right hbig]

/-- C2 (amended): `retryWithBackoff` performs at most `maxRetries + 1`
attempts, and — provided `0 ≤ initialDelayMs ≤ maxDelayMs` and
`backoffFactor ≥ 1` — the delay before retry `i + 1` is exactly
`min (initialDelayMs * backoffFactor ^ i, maxDelayMs)`.  (The first delay is
the unclamped `initialDelayMs` in general, so the closed form needs these
bounds.) -/
theorem retryWithBackoff_backoffSchedule {T : Type} (fn : ℕ → Except String T)
    (opts : RetryOptions) (h0 : 0 ≤ opts.initialDelayMs)
    (h1 : opts.initialDelayMs ≤ opts.maxDelayMs) (h2 : 1 ≤ opts.backoffFactor) :
    (retryWithBackoff fn opts).attempts ≤ opts.maxRetries + 1 ∧
    ∀ i, i < (retryWithBackoff fn opts).delays.length →
      (retryWithBackoff fn opts).delays.getD i 0 =
        min (opts.initialDelayMs * opts.backoffFactor ^ i) opts.maxDelayMs := by
  constructor
  · rw [retryWithBackoff, retryAux_attempts]
    have := retryAux_delays_length fn opts opts.maxRetries 0 opts.initialDelayMs
    omega
  · intro i hi
    rw [retryWithBackoff] at hi ⊢
    rw [retryAux_delays_getD fn opts opts.maxRetries 0 opts.initialDelayMs i hi]
    exact delayIter_closedForm opts h2 i opts.initialDelayMs h0 h1

/-- C2 witness: `maxRetries = 3`, `initialDelayMs = 100`,
`backoffFactor = 2`, default `maxDelayMs = 5000`, against an always-failing
retryable error: 4 attempts with delays 100, 200, 400, matching the closed
form. -/
theorem retryWithBackoff_backoffSchedule_witness :
    (retryWithBackoff (fun _ => (.error "timeout" : Except String Unit))
        ⟨3, 100, 5000, 2, some [.str "timeout"]⟩).delays = [100, 200, 400] ∧
    (retryWithBackoff (fun _ => (.error "timeout" : Except String Unit))
        ⟨3, 100, 5000, 2, some [.str "timeout"]⟩).attempts = 4 ∧
    (retryWithBackoff (fun _ => (.error "timeout" : Except String Unit))
        ⟨3, 100, 5000, 2, some [.str "timeout"]⟩).attempts ≤ 3 + 1 := by
  refine ⟨?_, ?_, ?_⟩
  · norm_num [retryWithBackoff, retryAux, retryBlocked, isRetryableError, jsIncludes]
  · norm_num [retryWithBackoff, retryAux, retryBlocked, isRetryableError, jsIncludes]
  exact (retryWithBackoff_backoffSchedule (fun _ => (.error "timeout" : Except String Unit))
    ⟨3, 100, 5000, 2, some [.str "timeout"]⟩ (by norm_num) (by norm_num) (by norm_num)).1

/-- C2 counterexample: with `initialDelayMs = 10000 > maxDelayMs = 5000` the
first delay actually slept is the unclamped 10000, while the claimed formula
`min(initialDelayMs * backoffFactor ^ 0, maxDelayMs)` gives 5000. -/
theorem retryWithBackoff_delayClamp_counterexample :
    (retryWithBackoff (fun _ => (.error "boom" : Except String Unit))
        ⟨1, 10000, 5000, 2, none⟩).delays = [10000] ∧
    ((10000 : ℚ) ≠ min ((10000 : ℚ) * 2 ^ 0) 5000) := by
  constructor
  · norm_num [retryWithBackoff, retryAux, retryBlocked]
  · norm_num

/-- Helper: with no `retryableErrors` filter configured, an always-failing
operation is attempted `remaining + 1` times. -/
theorem retryAux_noFilter_attempts {T : Type} (msg : ℕ → String) (opts : RetryOptions)
    (hp : opts.retryableErrors = none) :
    ∀ (r a : ℕ) (d : ℚ),
      (retryAux (T := T) (fun n => .error (msg n)) opts a d r).attempts = r + 1 := by
  intro r
  induction r with
  | zero => intro a d; simp [retryAux]
  | succ r ih =>
      intro a d
      have hb : retryBlocked opts (msg a) = false := by simp [retryBlocked, hp]
      simpa [retryAux, hb] using ih (a + 1) (min (d * opts.backoffFactor) opts.maxDelayMs)

/-- C3 (amended): the retryable-error filter is applied whenever
`retryableErrors` is present — even as an empty array, which makes every
error non-retryable.  First conjunct: with a present pattern list, an error
whose message matches none of the patterns is rethrown after the very first
attempt with zero retries, regardless of budget.  Second conjunct: with the
field absent, every error is retried up to the budget. -/
theorem retryWithBackoff_filterSemantics {T : Type} :
    (∀ (fn : ℕ → Except String T) (opts : RetryOptions) (pats : List RetryPattern)
        (e : String), opts.retryableErrors = some pats → fn 0 = .error e →
        isRetryableError e pats = false →
        retryWithBackoff fn opts = ⟨.error e, [], 1⟩) ∧
    (∀ (msg : ℕ → String) (opts : RetryOptions), opts.retryableErrors = none →
        (retryWithBackoff (T := T) (fun n => .error (msg n)) opts).attempts =
          opts.maxRetries + 1) := by
  constructor
  · intro fn opts pats e hp hf hm
    have hb : retryBlocked opts e = true := by simp [retryBlocked, hp, hm]
    rw [retryWithBackoff]
    cases hr : opts.maxRetries with
    | zero => simp [retryAux, hf]
    | succ r => simp [retryAux, hf, hb]
  · intro msg opts hp
    rw [retryWithBackoff]
    exact retryAux_noFilter_attempts msg opts hp opts.maxRetries 0 opts.initialDelayMs

/-- C3 witness: a present pattern list `["timeout"]` against an error
`"fatal"` gives one attempt and no retries; an absent filter with budget 3
gives 4 attempts. -/
theorem retryWithBackoff_filterSemantics_witness :
    retryWithBackoff (fun _ => (.error "fatal" : Except String Unit))
        ⟨3, 100, 5000, 2, some [.str "timeout"]⟩ = ⟨.error "fatal", [], 1⟩ ∧
    (retryWithBackoff (fun _ => (.error "econnreset" : Except String Unit))
        ⟨3, 100, 5000, 2, none⟩).attempts = 3 + 1 := by
  exact ⟨(retryWithBackoff_filterSemantics (T := Unit)).1 _ _ [.str "timeout"] "fatal"
      rfl rfl (by decide),
    (retryWithBackoff_filterSemantics (T := Unit)).2 (fun _ => "econnreset") _ rfl⟩

/-- C3 counterexample: an empty-but-present `retryableErrors` array is truthy
in the source, so the filter applies and rejects every error: an
always-failing operation with budget `maxRetries = 3` is attempted once, not
the `3 + 1` times the claim requires for an empty pattern list. -/
theorem retryWithBackoff_emptyPatterns_counterexample :
    (retryWithBackoff (fun _ => (.error "timeout" : Except String Unit))
        ⟨3, 100, 5000, 2, some []⟩).attempts = 1 ∧ (1 : ℕ) ≠ 3 + 1 := by
  constructor
  · norm_num [retryWithBackoff, retryAux, retryBlocked, isRetryableError]
  · decide

/-! ## Circuit breaker and resilience theorems -/

/-- Helper: recording an outcome appends it to the refreshed window, whatever
state transition it causes. -/
theorem recordOutcome_window (cfg : BreakerConfig) (now : ℤ) (failed : Bool)
    (st : BreakerState) :
    (recordOutcome cfg now failed st).window =
      freshOutcomes cfg now st.window ++ [(now, failed)] := by
  rw [recordOutcome]
  split <;> rfl

/-- C5: `fire` on a breaker in the open state (reset timeout not yet
elapsed) never invokes the wrapped function; the call resolves via the
registered fallback when one is configured and otherwise fails with the
CircuitOpen signal. -/
theorem fire_openShortCircuits {α β : Type} (cfg : BreakerConfig)
    (action : α → Except String β) (fb : Option (α → Option β × Bool))
    (st : BreakerState) (now t : ℤ) (args : α)
    (hst : st.circuit = .opened t) (htime : now - t < cfg.resetTimeout) :
    (fire cfg action fb st now args).invoked = false ∧
    (fire cfg action fb st now args).result =
      (match fb with
        | some h => .ok (h args).1
        | none => .error .circuitOpen) := by
  simp only [fire, hst, if_pos htime]
  cases fb <;> simp [shortCircuit]

/-- C5 witness: an open breaker at `now = 5000` with `resetTimeout = 10000`
and no fallback: the wrapped function (which would succeed) is not invoked
and the call fails with CircuitOpen. -/
theorem fire_openShortCircuits_witness :
    (fire ⟨50, 10000, 30000⟩ (fun _ : Unit => (.ok 42 : Except String ℕ)) none
        ⟨.opened 0, []⟩ 5000 ()).invoked = false ∧
    (fire ⟨50, 10000, 30000⟩ (fun _ : Unit => (.ok 42 : Except String ℕ)) none
        ⟨.opened 0, []⟩ 5000 ()).result = .error .circuitOpen := by
  have h := fire_openShortCircuits ⟨50, 10000, 30000⟩
    (fun _ : Unit => (.ok 42 : Except String ℕ)) none ⟨.opened 0, []⟩ 5000 0 ()
    rfl (by norm_num)
  exact ⟨h.1, h.2⟩

/-- C6: the function built by `createResilientFunction` is the breaker
applied to `retryWithBackoff` applied to the raw operation and `invoke`
delegates to the breaker's `fire` with the fallback attached at
construction; moreover a composed call whose retries ultimately fail is
recorded as exactly one failure outcome in the breaker's rolling window,
however many attempts the retry performed internally. -/
theorem resilientInvoke_composition {α β : Type} (fn : α → ℕ → Except String β)
    (opts : ResilienceOptions α β) (st : BreakerState) (now : ℤ) (args : α)
    (e : String) (hclosed : st.circuit = .closed)
    (hfail : (retryWithBackoff (fn args) opts.retry).result = .error e) :
    resilientInvoke fn opts st now args =
      fire opts.breakerConfig (fun a => (retryWithBackoff (fn a) opts.retry).result)
        (opts.fallbackValue.map fun fs => registeredFallback fs) st now args ∧
    (resilientInvoke fn opts st now args).state.window =
      freshOutcomes opts.breakerConfig now st.window ++ [(now, true)] := by
  constructor
  · rfl
  · simp only [resilientInvoke, fire, hclosed, resilientAction, hfail]
    cases hfb : opts.fallbackValue with
    | none => simp [hfb, recordOutcome_window]
    | some fs => simp [hfb, recordOutcome_window]

/-- C6 witness: a raw operation failing on all four attempts of its retry
budget shows up as a single failure entry in the rolling window. -/
theorem resilientInvoke_composition_witness :
    (resilientInvoke (fun (_ : Unit) _ => (.error "boom" : Except String ℕ))
        ⟨⟨3, 100, 5000, 2, none⟩, ⟨50, 10000, 30000⟩, none⟩
        ⟨.closed, []⟩ 0 ()).state.window = [(0, true)] := by
  have h := resilientInvoke_composition (fun (_ : Unit) _ => (.error "boom" : Except String ℕ))
    ⟨⟨3, 100, 5000, 2, none⟩, ⟨50, 10000, 30000⟩, none⟩ ⟨.closed, []⟩ 0 () "boom"
    rfl (by norm_num [retryWithBackoff, retryAux, retryBlocked])
  rw [h.2]
  rfl

/-- C7: the computed fallback handler receives the original call arguments
(its value at those arguments is resolved on success); when the handler
itself throws, the failure is caught and logged and the overall `fire` call
resolves to the null result rather than propagating the fallback error. -/
theorem computedFallback_spec {α β : Type} (cfg : BreakerConfig)
    (action : α → Except String β) (f : α → Except String β)
    (st : BreakerState) (now : ℤ) (args : α) (hclosed : st.circuit = .closed) :
    (∀ v, f args = .ok v → registeredFallback (.computed f) args = (some v, false)) ∧
    (∀ e eF, action args = .error e → f args = .error eF →
      (fire cfg action (some (registeredFallback (.computed f))) st now args).result =
        .ok none ∧
      (registeredFallback (.computed f) args).2 = true) := by
  constructor
  · intro v hv
    simp [registeredFallback, hv]
  · intro e eF ha hf
    constructor
    · simp [fire, hclosed, ha, registeredFallback, hf]
    · simp [registeredFallback, hf]

/-- C7 witness: an operation failing with "op fail" and a computed fallback
failing with "fallback boom": the call resolves to null and the fallback
error is logged. -/
theorem computedFallback_spec_witness :
    (fire ⟨50, 10000, 30000⟩ (fun _ : ℕ => (.error "op fail" : Except String ℕ))
        (some (registeredFallback (.computed fun _ => .error "fallback boom")))
        ⟨.closed, []⟩ 0 7).result = .ok none := by
  exact ((computedFallback_spec ⟨50, 10000, 30000⟩
      (fun _ : ℕ => (.error "op fail" : Except String ℕ))
      (fun _ => .error "fallback boom") ⟨.closed, []⟩ 0 7 rfl).2
    "op fail" "fallback boom" rfl rfl).1

/-! ## Route handler theorem -/

/-- Helper: a null entry anywhere in the settled results makes the
failed-files computation throw. -/
theorem countFailed_noneMem (results : List (Option FileResult))
    (hnull : none ∈ results) : countFailed results = .error () := by
  induction results with
  | nil => cases hnull
  | cons r rest ih =>
      cases r with
      | none => rfl
      | some fr =>
          rcases List.mem_cons.mp hnull with h1 | h2
          · exact absurd h1 (by simp)
          · simp [countFailed, ih h2]

/-- C10: when a file's resilient processing settles to null — the outcome of
a computed fallback that itself threw — the POST handler's failed-files count
dereferences `processed` on null and throws, so the endpoint takes the error
path instead of responding with the per-file results. -/
theorem uploadHandler_nullCrash (results : List (Option FileResult))
    (f : String → Except String FileResult) (args e : String)
    (hnull : none ∈ results) (hf : f args = .error e) :
    (registeredFallback (.computed f) args).1 = none ∧
    uploadHandler results = .errorResponse := by
  constructor
  · simp [registeredFallback, hf]
  · simp [uploadHandler, countFailed_noneMem results hnull]

/-- C10 witness: a two-file batch whose second result is null yields the
error response. -/
theorem uploadHandler_nullCrash_witness :
    uploadHandler [some ⟨"a.txt", 3, true, none⟩, none] = .errorResponse := by
  exact (uploadHandler_nullCrash [some ⟨"a.txt", 3, true, none⟩, none]
    (fun _ => .error "fb") "x" "fb" (by simp) rfl).2

end BFF
